import Mathlib

/-!
Verification of the attachment-stripping tool in
src/emailstripper/run_remove_attachments.py.

The Python module walks every message of an mbox archive, classifies leaf
MIME parts as attachments, extracts oversized ones to disk and splices a
text placeholder back into the message tree.  The definitions below are a
shallow embedding of that module: each Python function is translated into
a Lean function of the same name, external library calls (email.header,
mimetypes, uuid, hashlib, dateutil, the filesystem) are abstracted into an
explicit record of collaborator functions, and Python exceptions become
Except values.
-/

namespace Emailstripper

/-! ## String helpers (models of the Python string operations used) -/

/-- Model of Python str.rstrip(chars): remove all trailing characters that
are members of the character set chars (not the suffix chars). -/
def pyRstrip (s : String) (chars : String) : String :=
  String.mk ((s.data.reverse.dropWhile (fun c => chars.data.contains c)).reverse)

/-- The characters matched by the regex character class of line 136,
r-string [<>:"\/\|\?\*\t\n\r\0].  Inside the class each backslash escapes
the following character, so the class contains the twelve characters
< > : " / | ? * TAB LF CR NUL and does not contain the backslash itself. -/
def reservedChar (c : Char) : Bool :=
  c == '<' || c == '>' || c == ':' || c == '"' || c == '/' || c == '|' ||
  c == '?' || c == '*' || c == '\t' || c == '\n' || c == '\r' || c == '\x00'

/-- Model of re.sub with the character class above: every matched character
is replaced by a dash, all other characters are kept. -/
def sanitizeFilename (s : String) : String :=
  String.mk (s.data.map (fun c => if reservedChar c then '-' else c))

/-- The destination folder name computed in store_attachment (line 97):
filename.rstrip that is applied to the character set ".mbox", then
" attachments" is appended. -/
def storeFolderOf (filename : String) : String :=
  pyRstrip filename ".mbox" ++ " attachments"

/-- Auxiliary for pySplitFirst: cut the character list at the first
occurrence of the separator. -/
def splitFirstAux (sep : List Char) : List Char → List Char
  | [] => []
  | c :: cs => if sep.isPrefixOf (c :: cs) then [] else c :: splitFirstAux sep cs

/-- Model of Python s.split(sep)[0] for a non-empty separator: everything
before the first occurrence of sep (the whole string if sep is absent). -/
def pySplitFirst (s sep : String) : String :=
  String.mk (splitFirstAux sep.data s.data)

/-- Model of Python s.endswith(suffix). -/
def strEndsWith (s suffix : String) : Bool :=
  suffix.data.isSuffixOf s.data

/-- Model of Python len on a str: the number of code points. -/
def pyLen (s : String) : Nat :=
  s.data.length

/-! ## Date parsing: model of datetime.strptime for the two formats used

get_storage_filename calls dt.datetime.strptime with the formats
"%a, %d %b %Y %H:%M:%S %z" and "%a, %d %b %Y %H:%M:%S" and falls back to
dateutil.parser.parse (an external library, abstracted below) when
strptime raises ValueError.  The strptime model below follows CPython's
_strptime: case-insensitive abbreviated weekday and month names,
one-or-two digit day/hour/minute/second fields (the day also accepts a
leading blank before a single digit), a four digit year, a +-HHMM or
+-HH:MM or Z timezone offset, whole-string matching, and the range checks
performed by the datetime constructor. -/

/-- A parsed aware or naive datetime, the shape produced by strptime. -/
structure PyDateTime where
  year : Nat
  month : Nat
  day : Nat
  hour : Nat
  minute : Nat
  second : Nat
  tzOffsetMinutes : Option Int
deriving DecidableEq

/-- ASCII lower-casing of one character. -/
def lowerChar (c : Char) : Char :=
  if 'A' ≤ c ∧ c ≤ 'Z' then Char.ofNat (c.toNat + 32) else c

/-- Take three characters, lower-cased, for a %a or %b name field. -/
def take3Lower : List Char → Option (String × List Char)
  | a :: b :: c :: rest => some (String.mk [lowerChar a, lowerChar b, lowerChar c], rest)
  | _ => none

def weekdayNames : List String :=
  ["mon", "tue", "wed", "thu", "fri", "sat", "sun"]

def monthNum (s : String) : Option Nat :=
  if s == "jan" then some 1 else if s == "feb" then some 2
  else if s == "mar" then some 3 else if s == "apr" then some 4
  else if s == "may" then some 5 else if s == "jun" then some 6
  else if s == "jul" then some 7 else if s == "aug" then some 8
  else if s == "sep" then some 9 else if s == "oct" then some 10
  else if s == "nov" then some 11 else if s == "dec" then some 12
  else none

def digitVal (c : Char) : Option Nat :=
  if c.isDigit then some (c.toNat - '0'.toNat) else none

/-- One or two decimal digits, greedy, as in the strptime field regexes. -/
def parseDigits2 : List Char → Option (Nat × List Char)
  | [] => none
  | c :: rest =>
    match digitVal c with
    | none => none
    | some d =>
      match rest with
      | c2 :: rest2 =>
        match digitVal c2 with
        | some d2 => some (d * 10 + d2, rest2)
        | none => some (d, rest)
      | [] => some (d, [])

/-- The %d field: one or two digits, or a blank followed by one digit. -/
def parseDay : List Char → Option (Nat × List Char)
  | ' ' :: c :: rest =>
    match digitVal c with
    | some d => some (d, rest)
    | none => none
  | cs => parseDigits2 cs

/-- Exactly four decimal digits, the %Y field. -/
def parseYear4 : List Char → Option (Nat × List Char)
  | a :: b :: c :: d :: rest =>
    match digitVal a, digitVal b, digitVal c, digitVal d with
    | some x, some y, some z, some w => some (x * 1000 + y * 100 + z * 10 + w, rest)
    | _, _, _, _ => none
  | _ => none

/-- The %z field: Z, or a sign followed by HHMM or HH:MM (the optional
seconds extension of the CPython regex is not modelled; an offset with
seconds would simply fall through to the dateutil fallback).  The offset
is returned in minutes and must stay below one day, as enforced by
datetime.timezone. -/
def parseTz : List Char → Option (Int × List Char)
  | 'Z' :: rest => some (0, rest)
  | s :: rest =>
    if s == '+' || s == '-' then
      match rest with
      | h1 :: h2 :: rest2 =>
        match digitVal h1, digitVal h2 with
        | some a, some b =>
          let rest3 := if rest2.head? = some ':' then rest2.tail else rest2
          match rest3 with
          | m1 :: m2 :: rest4 =>
            match digitVal m1, digitVal m2 with
            | some x, some y =>
              let mins : Nat := (a * 10 + b) * 60 + (x * 10 + y)
              if mins < 1440 then
                some (if s == '-' then -(mins : Int) else (mins : Int), rest4)
              else none
            | _, _ => none
          | _ => none
        | _, _ => none
      | _ => none
    else none
  | [] => none

def isLeapYear (y : Nat) : Bool :=
  y % 4 == 0 && (y % 100 != 0 || y % 400 == 0)

def daysInMonth (y m : Nat) : Nat :=
  if m == 2 then (if isLeapYear y then 29 else 28)
  else if m == 4 || m == 6 || m == 9 || m == 11 then 30
  else 31

/-- Validity checks of the datetime constructor. -/
def validDateTime (d : PyDateTime) : Bool :=
  1 ≤ d.year && d.year ≤ 9999 && 1 ≤ d.month && d.month ≤ 12 &&
  1 ≤ d.day && d.day ≤ daysInMonth d.year d.month &&
  d.hour ≤ 23 && d.minute ≤ 59 && d.second ≤ 59

/-- Parse the common prefix "%a, %d %b %Y %H:%M:%S" of both formats,
returning the fields and the unconsumed rest of the input. -/
def parseDatePrefix (cs : List Char) : Option (PyDateTime × List Char) :=
  match take3Lower cs with
  | none => none
  | some (wd, r1) =>
    if !(weekdayNames.contains wd) then none else
    match r1 with
    | ',' :: ' ' :: r2 =>
      match parseDay r2 with
      | none => none
      | some (day, r3) =>
        match r3 with
        | ' ' :: r4 =>
          match take3Lower r4 with
          | none => none
          | some (mo, r5) =>
            match monthNum mo with
            | none => none
            | some month =>
              match r5 with
              | ' ' :: r6 =>
                match parseYear4 r6 with
                | none => none
                | some (year, r7) =>
                  match r7 with
                  | ' ' :: r8 =>
                    match parseDigits2 r8 with
                    | none => none
                    | some (hour, r9) =>
                      match r9 with
                      | ':' :: r10 =>
                        match parseDigits2 r10 with
                        | none => none
                        | some (minute, r11) =>
                          match r11 with
                          | ':' :: r12 =>
                            match parseDigits2 r12 with
                            | none => none
                            | some (second, r13) =>
                              some (⟨year, month, day, hour, minute, second, none⟩, r13)
                          | _ => none
                      | _ => none
                  | _ => none
              | _ => none
        | _ => none
    | _ => none

/-- datetime.strptime(s, "%a, %d %b %Y %H:%M:%S %z"); none models the
ValueError raised on a non-matching or invalid input. -/
def strptimeZ (s : String) : Option PyDateTime :=
  match parseDatePrefix s.data with
  | none => none
  | some (d, rest) =>
    match rest with
    | ' ' :: r1 =>
      match parseTz r1 with
      | some (off, []) =>
        if validDateTime d then some { d with tzOffsetMinutes := some off } else none
      | _ => none
    | _ => none

/-- datetime.strptime(s, "%a, %d %b %Y %H:%M:%S"), the timezone-free
variant used in the third strategy of the cascade. -/
def strptimeNoZ (s : String) : Option PyDateTime :=
  match parseDatePrefix s.data with
  | none => none
  | some (d, []) => if validDateTime d then some d else none
  | some (_, _ :: _) => none

/-- date.strftime with format "%Y%m%dT%H%M": the local fields of the
parsed datetime, zero-padded, minute precision. -/
def pad2 (n : Nat) : String :=
  if n < 10 then "0" ++ toString n else toString n

def pad4 (n : Nat) : String :=
  if n < 10 then "000" ++ toString n
  else if n < 100 then "00" ++ toString n
  else if n < 1000 then "0" ++ toString n
  else toString n

def formatDateStr (d : PyDateTime) : String :=
  pad4 d.year ++ pad2 d.month ++ pad2 d.day ++ "T" ++ pad2 d.hour ++ pad2 d.minute

/-! ## The From-header address scan: model of re.search with the pattern
([a-zA-Z0-9._-]+@[a-zA-Z0-9._-]+\.[a-zA-Z0-9_-]+) of line 133.  re.search
tries every start position from the left; at one position the first
character class is matched greedily, the at-sign cannot occur inside the
class so no backtracking arises there, the domain class is matched
greedily and then backtracked to the right-most dot that is followed by
at least one character of the dot-free final class, which is then matched
greedily. -/

def isAddrChar (c : Char) : Bool :=
  c.isAlpha || c.isDigit || c == '.' || c == '_' || c == '-'

def isTldChar (c : Char) : Bool :=
  c.isAlpha || c.isDigit || c == '_' || c == '-'

/-- Maximal run of characters satisfying f, together with the rest. -/
def takeRun (f : Char → Bool) : List Char → List Char × List Char
  | [] => ([], [])
  | c :: cs =>
    if f c then
      let (a, b) := takeRun f cs
      (c :: a, b)
    else ([], c :: cs)

/-- Right-most index j with 1 <= j, dom[j] a dot and dom[j+1] a character
of the dot-free class; the search starts at the given index and counts
down.  Out-of-range accesses use defaults that fail the tests. -/
def findDotIdx (dom : List Char) : Nat → Option Nat
  | 0 => none
  | j + 1 =>
    if dom.getD (j + 1) 'x' == '.' && dom.getD (j + 2) '.' != '.'
    then some (j + 1)
    else findDotIdx dom j

/-- Attempt to match the address pattern at the head of the list. -/
def matchEmailAt (cs : List Char) : Option (List Char) :=
  let (loc, r1) := takeRun isAddrChar cs
  if loc.isEmpty then none else
  match r1 with
  | '@' :: r2 =>
    let (dom, _) := takeRun isAddrChar r2
    match findDotIdx dom (dom.length - 1) with
    | none => none
    | some j =>
      let tld := (takeRun isTldChar (dom.drop (j + 1))).fst
      some (loc ++ '@' :: (dom.take j ++ '.' :: tld))
  | _ => none

def searchEmailAux : List Char → Option (List Char)
  | [] => none
  | c :: cs =>
    match matchEmailAt (c :: cs) with
    | some m => some m
    | none => searchEmailAux cs

/-- Model of re.search(pattern, s).group(0): the left-most match. -/
def reSearchEmail (s : String) : Option String :=
  (searchEmailAux s.data).map String.mk

/-! ## The message tree

A Part models an email.message.Message node through the accessors the
Python module uses: get_content_type, get_content_disposition,
get_filename, the _headers list, get_payload (a str, a non-str decoded
blob, or the list of sub-parts) and get_payload with decode=True (the
transport-decoded bytes, abstracted as a list of byte values). -/

mutual
inductive Part : Type where
  | mk : String → Option String → Option String → List (String × String) →
         List Nat → PartPayload → Part
inductive PartPayload : Type where
  | text : String → PartPayload
  | bytes : List Nat → PartPayload
  | parts : PartList → PartPayload
inductive PartList : Type where
  | nil : PartList
  | cons : Part → PartList → PartList
end

def Part.get_content_type : Part → String
  | .mk ct _ _ _ _ _ => ct

def Part.get_content_disposition : Part → Option String
  | .mk _ cd _ _ _ _ => cd

def Part.get_filename : Part → Option String
  | .mk _ _ fn _ _ _ => fn

def Part.headersOf : Part → List (String × String)
  | .mk _ _ _ hs _ _ => hs

def Part.decodedContent : Part → List Nat
  | .mk _ _ _ _ dc _ => dc

def Part.payloadOf : Part → PartPayload
  | .mk _ _ _ _ _ pl => pl

def Part.is_multipart (p : Part) : Bool :=
  match p.payloadOf with
  | .parts _ => true
  | _ => false

def PartList.length : PartList → Nat
  | .nil => 0
  | .cons _ ps => ps.length + 1

/-- Case-insensitive header lookup, the semantics of msg["Date"] /
msg["From"]: the first header of that name, or None. -/
def strLower (s : String) : String :=
  String.mk (s.data.map lowerChar)

def Part.getHeaderValue (p : Part) (name : String) : Option String :=
  (p.headersOf.find? (fun kv => strLower kv.1 == strLower name)).map Prod.snd

/-! ## External collaborators

The Python module calls into several libraries whose internals are out of
scope: email.header.decode_header, bytes.decode, mimetypes.guess_extension,
uuid.uuid4, dateutil.parser.parse (with the module-level tzmapping table),
hashlib.md5, dt.date.today and the filesystem's willingness to perform a
write (used to model the spec's injected write faults).  They are passed
in as an explicit record. -/

structure Externals where
  /-- First tuple of email.header.decode_header applied to a raw filename:
  the decoded data (None never actually occurs but the code checks it)
  and the charset, None for an unencoded header. -/
  decodeHeader : String → Option String × Option String
  /-- bytes.decode applied to the data when a charset was present. -/
  bytesDecode : String → String → String
  /-- mimetypes.guess_extension on the value of the Content-Type header. -/
  guessExtension : String → Option String
  /-- str applied to uuid.uuid4. -/
  uuid4 : String
  /-- dateutil.parser.parse with tzinfos set to the module's tzmapping
  table; none models the ValueError raised on an unparseable input. -/
  dateutilParse : String → Option PyDateTime
  /-- hexdigest of hashlib.md5 over the decoded content bytes. -/
  md5Hex : List Nat → String
  /-- str applied to dt.date.today. -/
  today : String
  /-- Whether a filesystem write at the given path succeeds; false models
  an injected OSError while storing an attachment. -/
  writeOk : String → Bool

/-! ## Filesystem model -/

/-- The directories and files (with contents) visible to the module. -/
structure FS where
  folders : List String
  files : List (String × List Nat)
deriving DecidableEq

/-- os.path.join, with the separator written in POSIX form; the claims
never depend on the separator character itself. -/
def pathJoin (a b : String) : String :=
  a ++ "/" ++ b

/-- Membership of a path in a folder list. -/
def strListHas : List String → String → Bool
  | [], _ => false
  | x :: xs, p => x == p || strListHas xs p

/-- Whether a file of the given path exists. -/
def filesHasKey : List (String × List Nat) → String → Bool
  | [], _ => false
  | kv :: rest, p => kv.1 == p || filesHasKey rest p

/-- Overwrite the content stored under an existing path. -/
def filesUpdate : List (String × List Nat) → String → List Nat → List (String × List Nat)
  | [], _, _ => []
  | kv :: rest, p, c =>
    if kv.1 == p then (p, c) :: filesUpdate rest p c else kv :: filesUpdate rest p c

/-- The content stored under a path, when present. -/
def filesGet : List (String × List Nat) → String → Option (List Nat)
  | [], _ => none
  | kv :: rest, p => if kv.1 == p then some kv.2 else filesGet rest p

/-- os.path.exists: a folder or a file of that exact path. -/
def FS.pathExists (fs : FS) (p : String) : Bool :=
  strListHas fs.folders p || filesHasKey fs.files p

/-- os.makedirs: the new folder is recorded (parent creation is not
observable by any claim and is elided). -/
def FS.makeDirs (fs : FS) (p : String) : FS :=
  { fs with folders := p :: fs.folders }

/-- open(p, "wb") followed by write: overwrite or create. -/
def FS.writeFile (fs : FS) (p : String) (content : List Nat) : FS :=
  if filesHasKey fs.files p then
    { fs with files := filesUpdate fs.files p content }
  else
    { fs with files := (p, content) :: fs.files }

def FS.readFile (fs : FS) (p : String) : Option (List Nat) :=
  filesGet fs.files p

/-! ## get_storage_filename (lines 114-136)

The date header is taken through the cascading strategy of the source:
strip a " (" parenthetical when a parenthesis occurs anywhere, try strict
strptime with %z, on ValueError try dateutil, on ValueError strip a
trailing " +" fragment and try strptime without %z, and finally dateutil
again (whose ValueError would propagate).  A None Date or From header
would raise a TypeError inside the respective library call, and an
address-free From header raises AttributeError on the .group call. -/

def get_storage_filename (env : Externals) (attachment_name : String)
    (msg_date msg_from : Option String) : Except String String :=
  match msg_date with
  | none => .error "TypeError"
  | some d0 =>
    let d1 := if d0.data.contains '(' then pySplitFirst d0 " (" else d0
    let dateRes : Option PyDateTime :=
      match strptimeZ d1 with
      | some dte => some dte
      | none =>
        match env.dateutilParse d1 with
        | some dte => some dte
        | none =>
          let d2 := pySplitFirst d1 " +"
          match strptimeNoZ d2 with
          | some dte => some dte
          | none => env.dateutilParse d2
    match dateRes with
    | none => .error "ValueError"
    | some dte =>
      let date_str := formatDateStr dte
      match msg_from with
      | none => .error "TypeError"
      | some fr =>
        match reSearchEmail fr with
        | none => .error "AttributeError"
        | some addr =>
          .ok (sanitizeFilename (date_str ++ " from-" ++ addr ++ " " ++ attachment_name))

/-! ## parse_attachment (lines 64-84) -/

/-- create_default_name (lines 87-95): scan the _headers list, and at the
first Content-Type header synthesize disposition-uuid-extension, with .bin
when mimetypes.guess_extension knows no extension; None when no
Content-Type header exists at all.  The caller has already established
that the disposition is inline or attachment, so the getD default is
never exercised. -/
def create_default_name (env : Externals) (part : Part) : Option String :=
  match part.headersOf.find? (fun kv => kv.1 == "Content-Type") with
  | none => none
  | some kv =>
    let disp := (part.get_content_disposition).getD ""
    match env.guessExtension kv.2 with
    | some ext => some (disp ++ "-" ++ env.uuid4 ++ ext)
    | none => some (disp ++ "-" ++ env.uuid4 ++ ".bin")

/-- The attachment-name resolution of parse_attachment lines 68-75:
get_filename, decoded through email.header.decode_header (first fragment,
charset-decoded when a charset is present), with create_default_name as
the fallback when no name resulted. -/
def resolveName (env : Externals) (part : Part) : Option String :=
  let name1 : Option String :=
    match part.get_filename with
    | none => none
    | some raw =>
      match env.decodeHeader raw with
      | (data, some enc) =>
        match data with
        | some d => some (env.bytesDecode d enc)
        | none => none
      | (data, none) => data
  match name1 with
  | some n => some n
  | none => create_default_name env part

/-- The console line printed when a .eml attachment is skipped. -/
def emlSkipMsg (name : String) : String :=
  "Storing .eml files not supported, skipping " ++ name ++ "."

/-- The content-disposition test of line 66: Python None is in no list, so
a missing disposition fails the test. -/
def dispositionOk (part : Part) : Bool :=
  match part.get_content_disposition with
  | some d => d == "inline" || d == "attachment"
  | none => false

/-- parse_attachment: None-pair for a part that is not inline/attachment,
for a nameless part and (with a printed skip notice, the second component)
for a .eml name; otherwise the encoded payload must be a str (the assert
of line 82, whose failure is the AssertionError) and its length is the
measured content size. -/
def parse_attachment (env : Externals) (part : Part) :
    Except String ((Option Nat × Option String) × List String) :=
  if !(dispositionOk part) then .ok ((none, none), [])
  else
    match resolveName env part with
    | none => .ok ((none, none), [])
    | some attachment_name =>
      if strEndsWith attachment_name ".eml" then
        .ok ((none, none), [emlSkipMsg attachment_name])
      else
        match part.payloadOf with
        | .text content => .ok ((some (pyLen content), some attachment_name), [])
        | _ => .error "AssertionError"

/-! ## store_attachment (lines 96-111) and the placeholder -/

/-- Python float formatting with ":.0f" applied to n / 1e3: round to the
nearest integer, ties to even (the bankers rounding of IEEE floats; for
sizes far beyond 2 to the 53rd the float division could differ, which no
realistic attachment reaches). -/
def formatKB (n : Nat) : String :=
  let q := n / 1000
  let r := n % 1000
  if r > 500 then toString (q + 1)
  else if r < 500 then toString q
  else if q % 2 == 0 then toString q else toString (q + 1)

/-- store_attachment: derive the storage filename, build the destination
folder (created when absent), take the transport-decoded bytes, prefix the
md5 hexdigest and a blank when a file of that name already exists, and
write.  Errors of the filename derivation propagate; a false writeOk
models an injected OSError of the file write. -/
def store_attachment (env : Externals) (part : Part)
    (attachment_name filename base_path : String)
    (msg_date msg_from : Option String) (fs : FS) : Except String String × FS :=
  match get_storage_filename env attachment_name msg_date msg_from with
  | .error e => (.error e, fs)
  | .ok store_filename =>
    let store_folder := storeFolderOf filename
    let path := pathJoin base_path store_folder
    let fs1 := if fs.pathExists path then fs else fs.makeDirs path
    let content := part.decodedContent
    let store_filename1 :=
      if fs1.pathExists (pathJoin path store_filename)
      then env.md5Hex content ++ " " ++ store_filename
      else store_filename
    if env.writeOk (pathJoin path store_filename1)
    then (.ok store_filename1, fs1.writeFile (pathJoin path store_filename1) content)
    else (.error "OSError", fs1)

/-- The body of the placeholder produced by get_replace_text (lines 139-142). -/
def replaceBody (attachment_name store_filename : String) (content_size : Nat)
    (today : String) : String :=
  "Attachment \"" ++ attachment_name ++ "\" with size " ++ formatKB content_size ++
  " kB has been removed (" ++ today ++ "). Storage filename: " ++ store_filename ++ "\r\n"

/-- get_replace_text: the email.mime.text.MIMEText object spliced into the
parent in place of the removed attachment — a text/plain leaf carrying the
note, with the headers MIMEText sets. -/
def get_replace_text (attachment_name store_filename : String) (content_size : Nat)
    (today : String) : Part :=
  let body := replaceBody attachment_name store_filename content_size today
  Part.mk "text/plain" none none
    [("Content-Type", "text/plain; charset=\"us-ascii\""),
     ("MIME-Version", "1.0"),
     ("Content-Transfer-Encoding", "7bit")]
    (body.data.map Char.toNat)
    (.text body)

/-- The console line printed for each removed attachment (line 54). -/
def removalMsg (attachment_name : String) (content_size : Nat) : String :=
  "Removing attachment " ++ attachment_name ++ " with size " ++
  formatKB content_size ++ " kB."

/-! ## walk_over_parts (lines 40-61)

The Python function mutates the part tree in place and returns the updated
removal count; the embedding returns the updated tree, the count, the list
of removal notices printed (one per removed attachment, in order) and the
filesystem.  A raised exception (AssertionError of the classifier, a
failed filename derivation, an injected write fault) propagates as the
error case; the filesystem component is returned on every path so that
writes performed before a failure stay visible. -/

mutual
def walk_over_parts (env : Externals) (base_path filename : String)
    (msg_date msg_from : Option String) (size : Nat)
    (parent : Part) (count : Nat) (fs : FS) :
    Except String (Part × Nat × List String) × FS :=
  match parent with
  | .mk ct cd fn hs dc pl =>
    match pl with
    | .parts children =>
      match walkChildren env base_path filename msg_date msg_from size children count fs with
      | (.ok (children1, count1, rem), fs1) =>
        (.ok (.mk ct cd fn hs dc (.parts children1), count1, rem), fs1)
      | (.error e, fs1) => (.error e, fs1)
    | _ => (.ok (.mk ct cd fn hs dc pl, count, []), fs)
termination_by structural parent

def walkChildren (env : Externals) (base_path filename : String)
    (msg_date msg_from : Option String) (size : Nat)
    (ps : PartList) (count : Nat) (fs : FS) :
    Except String (PartList × Nat × List String) × FS :=
  match ps with
  | .nil => (.ok (.nil, count, []), fs)
  | .cons part rest =>
    if part.get_content_type == "text/plain" || part.get_content_type == "text/html" then
      match walkChildren env base_path filename msg_date msg_from size rest count fs with
      | (.ok (rest1, count1, rem), fs1) => (.ok (.cons part rest1, count1, rem), fs1)
      | (.error e, fs1) => (.error e, fs1)
    else if part.is_multipart then
      match walk_over_parts env base_path filename msg_date msg_from size part count fs with
      | (.ok (part1, count1, rem1), fs1) =>
        match walkChildren env base_path filename msg_date msg_from size rest count1 fs1 with
        | (.ok (rest1, count2, rem2), fs2) => (.ok (.cons part1 rest1, count2, rem1 ++ rem2), fs2)
        | (.error e, fs2) => (.error e, fs2)
      | (.error e, fs1) => (.error e, fs1)
    else
      match parse_attachment env part with
      | .error e => (.error e, fs)
      | .ok ((content_size, attachment_name), _printed) =>
        match content_size, attachment_name with
        | some n, some name =>
          if n > size then
            match store_attachment env part name filename base_path msg_date msg_from fs with
            | (.ok store_filename, fs1) =>
              match walkChildren env base_path filename msg_date msg_from size rest (count + 1) fs1 with
              | (.ok (rest1, count2, rem), fs2) =>
                (.ok (.cons (get_replace_text name store_filename n env.today) rest1,
                      count2, removalMsg name n :: rem), fs2)
              | (.error e, fs2) => (.error e, fs2)
            | (.error e, fs1) => (.error e, fs1)
          else
            match walkChildren env base_path filename msg_date msg_from size rest count fs with
            | (.ok (rest1, count1, rem), fs1) => (.ok (.cons part rest1, count1, rem), fs1)
            | (.error e, fs1) => (.error e, fs1)
        | _, _ =>
          -- parse_attachment yields the name exactly when it yields the
          -- size, so the mixed cases cannot occur; the loop just moves on.
          match walkChildren env base_path filename msg_date msg_from size rest count fs with
          | (.ok (rest1, count1, rem), fs1) => (.ok (.cons part rest1, count1, rem), fs1)
          | (.error e, fs1) => (.error e, fs1)
termination_by structural ps
end

/-! ## The per-archive driver (main, lines 17-37)

main locks the mbox, iterates its keyed messages inside a try block
whose finally clause flushes and closes the mailbox, snapshots the Date
and From headers of each message, walks it, and writes the mutated
message back under its key when the walk raised the count.  The mailbox
lifecycle is modelled by three booleans; flush and close are the pure
state updates of the finally clause and run on the normal and on the
exceptional path alike. -/

/-- The lock/flush/close lifecycle state of one mailbox.mbox handle. -/
structure MboxState where
  locked : Bool
  flushed : Bool
  closed : Bool
deriving DecidableEq

/-- The state after mbox.lock(). -/
def lockedState : MboxState :=
  { locked := true, flushed := false, closed := false }

/-- The finally clause: mbox.flush() then mbox.close() (close also
releases the lock). -/
def finallyFlushClose (_st : MboxState) : MboxState :=
  { locked := false, flushed := true, closed := true }

/-- The for-loop over mbox.items(): walk each message with a single
running count, and persist the mutated message under its key exactly when
the count grew.  An exception from the walk aborts the iteration, leaving
the remaining messages untouched; the filesystem is returned on every
path. -/
def iterMessages (env : Externals) (base_path filename : String) (size : Nat) :
    List (Nat × Part) → Nat → FS → (Except String Nat × List (Nat × Part) × FS)
  | [], count, fs => (.ok count, [], fs)
  | (key, msg) :: rest, count, fs =>
    let msg_date := msg.getHeaderValue "Date"
    let msg_from := msg.getHeaderValue "From"
    match walk_over_parts env base_path filename msg_date msg_from size msg count fs with
    | (.ok (msg1, count1, _rem), fs1) =>
      let stored := if count1 > count then msg1 else msg
      match iterMessages env base_path filename size rest count1 fs1 with
      | (res, rest1, fs2) => (res, (key, stored) :: rest1, fs2)
    | (.error e, fs1) => (.error e, (key, msg) :: rest, fs1)

/-- Processing of one archive file: lock, iterate under try/finally,
flush + close on both exit paths.  Returns the outcome of the iteration
(the removal count, or the propagated error), the backing store's message
list, the final mailbox lifecycle state, and the filesystem. -/
def processOneMbox (env : Externals) (base_path filename : String) (size : Nat)
    (msgs : List (Nat × Part)) (fs : FS) :
    Except String Nat × List (Nat × Part) × MboxState × FS :=
  let st := lockedState
  match iterMessages env base_path filename size msgs 0 fs with
  | (.ok count, msgs1, fs1) => (.ok count, msgs1, finallyFlushClose st, fs1)
  | (.error e, msgs1, fs1) => (.error e, msgs1, finallyFlushClose st, fs1)

/-! ## The processed-message predicate used by the idempotence claim

A child of a container is skipped by the walker loop when its declared
content type is text/plain or text/html; a message all of whose parts
are such skipped children, or containers of such children, is fully
processed: every former attachment has been replaced by a text/plain
placeholder. -/

def textualPart (p : Part) : Bool :=
  p.get_content_type == "text/plain" || p.get_content_type == "text/html"

mutual
def processedTree : Part → Bool
  | .mk _ _ _ _ _ (.parts cs) => processedChildren cs
  | .mk _ _ _ _ _ (.text _) => true
  | .mk _ _ _ _ _ (.bytes _) => true
termination_by structural p => p

def processedChildren : PartList → Bool
  | .nil => true
  | .cons p ps =>
    (textualPart p || (p.is_multipart && processedTree p)) && processedChildren ps
termination_by structural ps => ps
end

/-! ## Fixtures used by the witness theorems -/

/-- A concrete collaborator record: identity-like header decoding, no
guessed extensions, a fixed uuid and day, an always-failing dateutil, a
fixed md5 hexdigest and a fault-free filesystem. -/
def sampleEnv : Externals where
  decodeHeader := fun s => (some s, none)
  bytesDecode := fun s _ => s
  guessExtension := fun _ => none
  uuid4 := "0123"
  dateutilParse := fun _ => none
  md5Hex := fun _ => "9e107d9d372bb6826bd81d3542a419d6"
  today := "2026-10-12"
  writeOk := fun _ => true

/-- A leaf part carrying a pdf attachment whose encoded payload has
sixteen characters. -/
def samplePdf : Part :=
  Part.mk "application/pdf" (some "attachment") (some "report.pdf") []
    [37, 80, 68, 70] (.text "JVBERi0xLjQKJcfs")

/-- A multipart/mixed message holding the pdf leaf. -/
def sampleMixed : Part :=
  Part.mk "multipart/mixed" none none [] [] (.parts (.cons samplePdf .nil))

/-- An attached forwarded message, the unsupported .eml case. -/
def sampleEml : Part :=
  Part.mk "message/rfc822" (some "attachment") (some "forwarded.eml") []
    [70, 114] (.text "From: a@b.cd")

/-- A second pdf leaf with the same declared filename as samplePdf but
different content, for the collision claim. -/
def samplePdf2 : Part :=
  Part.mk "application/pdf" (some "attachment") (some "report.pdf") []
    [1, 2, 3] (.text "QUFB")

/-- An attachment part whose payload is a decoded binary blob rather than
the transport-encoded string. -/
def sampleBlob : Part :=
  Part.mk "application/pdf" (some "attachment") (some "broken.pdf") []
    [0, 1] (.bytes [0, 1])

/-- A message whose attachments have already been replaced by text/plain
placeholders: a multipart/alternative of body text plus a placeholder. -/
def sampleProcessed : Part :=
  Part.mk "multipart/mixed" none none [] []
    (.parts (.cons (Part.mk "text/plain" none none [] [] (.text "body"))
      (.cons (Part.mk "multipart/alternative" none none [] []
        (.parts (.cons (Part.mk "text/html" none none [] [] (.text "<p>x</p>"))
          (.cons (get_replace_text "big.pdf" "stored big.pdf" 200000 "2026-10-12") .nil))))
        .nil)))

/-- The empty filesystem. -/
def emptyFS : FS :=
  ⟨[], []⟩

/-! ## Claim theorems -/

/-- C1: the claim states that the destination folder is named by removing
exactly the trailing ".mbox" extension and appending " attachments", for
every basename including ones ending in the letters m, b, o, x or a dot.
The code instead applies str.rstrip(".mbox"), which strips the trailing
character set, so the archive "demo.mbox" is given the folder
"de attachments" rather than "demo attachments" (while an rstrip-safe
basename such as "work.mbox" happens to give "work attachments"). -/
theorem c1_store_folder_rstrip_eval :
    storeFolderOf "demo.mbox" = "de attachments" ∧
    storeFolderOf "demo.mbox" ≠ "demo attachments" ∧
    storeFolderOf "work.mbox" = "work attachments" := by
  refine ⟨by decide, by decide, by decide⟩

/-- C2: the claim states that sanitization replaces every character of the
reserved set, including the backslash.  The regex character class of the
code, in which every backslash escapes the following character, does not
contain the backslash itself: a backslash survives sanitization unchanged
while the other twelve reserved characters are replaced by dashes. -/
theorem c2_sanitize_backslash_eval :
    sanitizeFilename "a\\b" = "a\\b" ∧
    sanitizeFilename "a\\b" ≠ "a-b" ∧
    sanitizeFilename "<>:\"/|?*\t\n\r\x00\\" = "------------\\" := by
  refine ⟨by decide, by decide, by decide⟩

/-- C3: on every exit path of processing one archive, normal or error
(including an error that propagates mid-iteration, such as an injected
write fault or a failing classifier), the finally clause leaves the
mailbox flushed, closed and unlocked. -/
theorem c3_archive_always_flushed_closed (env : Externals)
    (base_path filename : String) (size : Nat)
    (msgs : List (Nat × Part)) (fs : FS) :
    (processOneMbox env base_path filename size msgs fs).2.2.1.flushed = true ∧
    (processOneMbox env base_path filename size msgs fs).2.2.1.closed = true ∧
    (processOneMbox env base_path filename size msgs fs).2.2.1.locked = false := by
  unfold processOneMbox
  rcases hIt : iterMessages env base_path filename size msgs 0 fs with ⟨res, msgs1, fs1⟩
  cases res <;> simp [finallyFlushClose]

/-- C6: filename synthesis with the Date header
"Fri, 02 Jun 2023 08:15:00 +0000 (UTC)" produces the same storage filename
as with "Fri, 02 Jun 2023 08:15:00 +0000", for every attachment name and
every From header: the parenthetical is stripped before strict parsing and
the date resolves to the same timestamp. -/
theorem c6_date_parenthetical_equiv (env : Externals) (attachment_name : String)
    (msg_from : Option String) :
    get_storage_filename env attachment_name
      (some "Fri, 02 Jun 2023 08:15:00 +0000 (UTC)") msg_from =
    get_storage_filename env attachment_name
      (some "Fri, 02 Jun 2023 08:15:00 +0000") msg_from :=
  rfl

/-- C8: a part whose resolved attachment name ends in ".eml" makes the
classifier return the null pair with a printed skip notice instead of an
error, and the walker leaves such a part untouched with the removal
counter and the filesystem unchanged. -/
theorem c8_eml_skip (env : Externals) (part : Part) (name : String)
    (base_path filename : String) (msg_date msg_from : Option String)
    (size count : Nat) (fs : FS)
    (hdisp : dispositionOk part = true)
    (hname : resolveName env part = some name)
    (heml : strEndsWith name ".eml" = true)
    (hct : (part.get_content_type == "text/plain" ||
            part.get_content_type == "text/html") = false)
    (hmp : part.is_multipart = false) :
    parse_attachment env part = .ok ((none, none), [emlSkipMsg name]) ∧
    walkChildren env base_path filename msg_date msg_from size
      (.cons part .nil) count fs = (.ok (.cons part .nil, count, []), fs) := by
  have hpa : parse_attachment env part = .ok ((none, none), [emlSkipMsg name]) := by
    unfold parse_attachment
    rw [hdisp, hname]
    simp [heml]
  refine ⟨hpa, ?_⟩
  rw [walkChildren, hct, hpa]
  simp [hmp, walkChildren]

/-- C9: a part that reaches size measurement (inline/attachment
disposition, resolved non-.eml name) but whose payload is not the encoded
text string — a decoded binary blob or a nested part list — makes the
classifier fail loudly with the AssertionError of the assert statement
instead of returning a size. -/
theorem c9_nontext_payload_raises (env : Externals) (part : Part) (name : String)
    (hdisp : dispositionOk part = true)
    (hname : resolveName env part = some name)
    (heml : strEndsWith name ".eml" = false)
    (hpl : ∀ s, part.payloadOf ≠ .text s) :
    parse_attachment env part = .error "AssertionError" := by
  unfold parse_attachment
  rw [hdisp, hname]
  simp only [Bool.not_true, Bool.false_eq_true, if_false, heml]

/-- Witness for C8 at a concrete forwarded-message part. -/
theorem c8_eml_skip_witness :
    (dispositionOk sampleEml = true ∧
     resolveName sampleEnv sampleEml = some "forwarded.eml" ∧
     strEndsWith "forwarded.eml" ".eml" = true) ∧
    parse_attachment sampleEnv sampleEml = .ok ((none, none), [emlSkipMsg "forwarded.eml"]) ∧
    walkChildren sampleEnv "base" "work.mbox" (some "d") (some "f") 100
      (.cons sampleEml .nil) 3 emptyFS = (.ok (.cons sampleEml .nil, 3, []), emptyFS) :=
  ⟨⟨rfl, rfl, rfl⟩,
   c8_eml_skip sampleEnv sampleEml "forwarded.eml" "base" "work.mbox"
     (some "d") (some "f") 100 3 emptyFS rfl rfl rfl rfl rfl⟩

/-- Witness for C9 at a concrete part carrying a decoded blob payload. -/
theorem c9_nontext_payload_raises_witness :
    (dispositionOk sampleBlob = true ∧
     resolveName sampleEnv sampleBlob = some "broken.pdf" ∧
     strEndsWith "broken.pdf" ".eml" = false) ∧
    parse_attachment sampleEnv sampleBlob = .error "AssertionError" :=
  ⟨⟨rfl, rfl, rfl⟩,
   c9_nontext_payload_raises sampleEnv sampleBlob "broken.pdf" rfl rfl rfl
     (fun _ h => PartPayload.noConfusion h)⟩

/-- C4: the size threshold is a strict greater-than.  A classified leaf
part whose measured encoded size equals the threshold is left in place
with the counter, the removal log and the filesystem unchanged; a part
whose size exceeds the threshold is stored, replaced by the placeholder
and counted once (given that its storage succeeded). -/
theorem c4_threshold_strict :
    (∀ (env : Externals) (base_path filename : String) (msg_date msg_from : Option String)
       (size count : Nat) (fs : FS) (part : Part) (n : Nat) (name : String)
       (printed : List String),
       (part.get_content_type == "text/plain" ||
        part.get_content_type == "text/html") = false →
       part.is_multipart = false →
       parse_attachment env part = .ok ((some n, some name), printed) →
       n = size →
       walkChildren env base_path filename msg_date msg_from size
         (.cons part .nil) count fs = (.ok (.cons part .nil, count, []), fs)) ∧
    (∀ (env : Externals) (base_path filename : String) (msg_date msg_from : Option String)
       (size count : Nat) (fs : FS) (part : Part) (n : Nat) (name : String)
       (printed : List String) (sfn : String) (fs1 : FS),
       (part.get_content_type == "text/plain" ||
        part.get_content_type == "text/html") = false →
       part.is_multipart = false →
       parse_attachment env part = .ok ((some n, some name), printed) →
       size < n →
       store_attachment env part name filename base_path msg_date msg_from fs = (.ok sfn, fs1) →
       walkChildren env base_path filename msg_date msg_from size
         (.cons part .nil) count fs =
         (.ok (.cons (get_replace_text name sfn n env.today) .nil,
               count + 1, [removalMsg name n]), fs1)) := by
  constructor
  · intro env base_path filename msg_date msg_from size count fs part n name printed
      hct hmp hpa hn
    subst hn
    rw [walkChildren, hct, hpa]
    simp [hmp, walkChildren, Nat.lt_irrefl]
  · intro env base_path filename msg_date msg_from size count fs part n name printed
      sfn fs1 hct hmp hpa hlt hst
    rw [walkChildren, hct, hpa]
    simp [hmp, hlt, hst, walkChildren]

/-- Witness for C4: the sixteen-character pdf leaf is kept at threshold 16
and removed, replaced and counted at threshold 10. -/
theorem c4_threshold_strict_witness :
    walkChildren sampleEnv "base" "work.mbox" (some "Fri, 02 Jun 2023 08:15:00 +0000")
      (some "bob@mail.org x") 16 (.cons samplePdf .nil) 0 emptyFS =
      (.ok (.cons samplePdf .nil, 0, []), emptyFS) ∧
    walkChildren sampleEnv "base" "work.mbox" (some "Fri, 02 Jun 2023 08:15:00 +0000")
      (some "bob@mail.org x") 10 (.cons samplePdf .nil) 0 emptyFS =
      (.ok (.cons (get_replace_text "report.pdf"
              "20230602T0815 from-bob@mail.org report.pdf" 16 sampleEnv.today) .nil,
            1, [removalMsg "report.pdf" 16]),
       ⟨["base/work attachments"],
        [("base/work attachments/20230602T0815 from-bob@mail.org report.pdf",
          [37, 80, 68, 70])]⟩) :=
  ⟨c4_threshold_strict.1 sampleEnv "base" "work.mbox"
     (some "Fri, 02 Jun 2023 08:15:00 +0000") (some "bob@mail.org x") 16 0 emptyFS
     samplePdf 16 "report.pdf" [] rfl rfl rfl rfl,
   c4_threshold_strict.2 sampleEnv "base" "work.mbox"
     (some "Fri, 02 Jun 2023 08:15:00 +0000") (some "bob@mail.org x") 10 0 emptyFS
     samplePdf 16 "report.pdf" [] "20230602T0815 from-bob@mail.org report.pdf"
     ⟨["base/work attachments"],
      [("base/work attachments/20230602T0815 from-bob@mail.org report.pdf",
        [37, 80, 68, 70])]⟩
     rfl rfl rfl (by decide) rfl⟩

/-! ## Helper lemmas about the walker, by mutual structural induction -/

mutual
/-- A tree in the processed form (every part textual or a container of
processed parts) is walked without any change. -/
theorem walk_processed_id (env : Externals) (base_path filename : String)
    (msg_date msg_from : Option String) (size : Nat) (p : Part) :
    ∀ count fs, processedTree p = true →
      walk_over_parts env base_path filename msg_date msg_from size p count fs =
        (.ok (p, count, []), fs) := by
  match p with
  | .mk ct cd fnm hs dc (.parts cs) =>
    intro count fs hp
    simp only [processedTree] at hp
    rw [walk_over_parts,
      walkChildren_processed_id env base_path filename msg_date msg_from size cs count fs hp]
  | .mk ct cd fnm hs dc (.text s) =>
    intro count fs hp
    rfl
  | .mk ct cd fnm hs dc (.bytes b) =>
    intro count fs hp
    rfl
termination_by structural p

/-- Children in the processed form are all skipped or recursed into
without any change. -/
theorem walkChildren_processed_id (env : Externals) (base_path filename : String)
    (msg_date msg_from : Option String) (size : Nat) (ps : PartList) :
    ∀ count fs, processedChildren ps = true →
      walkChildren env base_path filename msg_date msg_from size ps count fs =
        (.ok (ps, count, []), fs) := by
  match ps with
  | .nil =>
    intro count fs hp
    rw [walkChildren]
  | .cons p rest =>
    intro count fs hp
    simp only [processedChildren, Bool.and_eq_true] at hp
    obtain ⟨hp1, hp2⟩ := hp
    rw [walkChildren]
    cases htx : textualPart p with
    | true =>
      unfold textualPart at htx
      rw [htx,
        walkChildren_processed_id env base_path filename msg_date msg_from size rest count fs hp2]
      rfl
    | false =>
      rw [htx] at hp1
      simp only [Bool.false_or, Bool.and_eq_true] at hp1
      obtain ⟨hmp, hpt⟩ := hp1
      unfold textualPart at htx
      rw [htx, hmp,
        walk_processed_id env base_path filename msg_date msg_from size p count fs hpt]
      simp only [Bool.false_eq_true, if_false, eq_self_iff_true, if_true, List.nil_append]
      rw [walkChildren_processed_id env base_path filename msg_date msg_from size rest count fs hp2]
termination_by structural ps
end

/-- C7: the walker is idempotent on already-processed messages: a message
whose attachments have all been replaced by text/plain placeholders (so
that every part of its tree is plain text, HTML, or a container of such)
is walked with zero additional removals, an unchanged tree, an unchanged
count and an untouched filesystem, because plain-text and HTML children
are always skipped. -/
theorem c7_processed_message_unchanged (env : Externals)
    (base_path filename : String) (msg_date msg_from : Option String)
    (size count : Nat) (fs : FS) (msg : Part)
    (hp : processedTree msg = true) :
    walk_over_parts env base_path filename msg_date msg_from size msg count fs =
      (.ok (msg, count, []), fs) :=
  walk_processed_id env base_path filename msg_date msg_from size msg count fs hp

/-- Witness for C7 at a concrete placeholder-processed message. -/
theorem c7_processed_message_unchanged_witness :
    processedTree sampleProcessed = true ∧
    walk_over_parts sampleEnv "base" "work.mbox" (some "d") (some "f") 100000
      sampleProcessed 2 emptyFS = (.ok (sampleProcessed, 2, []), emptyFS) :=
  ⟨rfl,
   c7_processed_message_unchanged sampleEnv "base" "work.mbox" (some "d") (some "f")
     100000 2 emptyFS sampleProcessed rfl⟩

mutual
/-- On a successful walk of one node, the returned count is the incoming
count plus the number of removal notices. -/
theorem walk_count_len (env : Externals) (base_path filename : String)
    (msg_date msg_from : Option String) (size : Nat) (p : Part) :
    ∀ count fs p1 c1 rem fs1,
      walk_over_parts env base_path filename msg_date msg_from size p count fs =
        (.ok (p1, c1, rem), fs1) →
      c1 = count + rem.length := by
  match p with
  | .mk ct cd fnm hs dc (.parts cs) =>
    intro count fs p1 c1 rem fs1 h
    rw [walk_over_parts] at h
    rcases hw : walkChildren env base_path filename msg_date msg_from size cs count fs with
      ⟨res, fs2⟩
    rw [hw] at h
    cases res with
    | ok t =>
      obtain ⟨cs1, cc, crem⟩ := t
      simp only [Prod.mk.injEq, Except.ok.injEq] at h
      obtain ⟨⟨hp1, hc, hr⟩, hfs⟩ := h
      subst hc
      subst hr
      exact walkChildren_count_len env base_path filename msg_date msg_from size cs
        count fs cs1 cc crem fs2 hw
    | error e => simp at h
  | .mk ct cd fnm hs dc (.text s) =>
    intro count fs p1 c1 rem fs1 h
    have e : walk_over_parts env base_path filename msg_date msg_from size
        (.mk ct cd fnm hs dc (.text s)) count fs =
        (.ok (.mk ct cd fnm hs dc (.text s), count, []), fs) := rfl
    rw [e] at h
    simp only [Prod.mk.injEq, Except.ok.injEq] at h
    obtain ⟨⟨hp1, hc, hr⟩, hfs⟩ := h
    subst hc
    subst hr
    simp
  | .mk ct cd fnm hs dc (.bytes b) =>
    intro count fs p1 c1 rem fs1 h
    have e : walk_over_parts env base_path filename msg_date msg_from size
        (.mk ct cd fnm hs dc (.bytes b)) count fs =
        (.ok (.mk ct cd fnm hs dc (.bytes b), count, []), fs) := rfl
    rw [e] at h
    simp only [Prod.mk.injEq, Except.ok.injEq] at h
    obtain ⟨⟨hp1, hc, hr⟩, hfs⟩ := h
    subst hc
    subst hr
    simp
termination_by structural p

/-- On a successful walk of a child list, the returned count is the
incoming count plus the number of removal notices. -/
theorem walkChildren_count_len (env : Externals) (base_path filename : String)
    (msg_date msg_from : Option String) (size : Nat) (ps : PartList) :
    ∀ count fs ps1 c1 rem fs1,
      walkChildren env base_path filename msg_date msg_from size ps count fs =
        (.ok (ps1, c1, rem), fs1) →
      c1 = count + rem.length := by
  match ps with
  | .nil =>
    intro count fs ps1 c1 rem fs1 h
    have e : walkChildren env base_path filename msg_date msg_from size .nil count fs =
        (.ok (.nil, count, []), fs) := rfl
    rw [e] at h
    simp only [Prod.mk.injEq, Except.ok.injEq] at h
    obtain ⟨⟨hp1, hc, hr⟩, hfs⟩ := h
    subst hc
    subst hr
    simp
  | .cons part rest =>
    intro count fs ps1 c1 rem fs1 h
    rw [walkChildren] at h
    split at h
    · -- text/plain or text/html child: skipped
      rcases hw : walkChildren env base_path filename msg_date msg_from size rest count fs with
        ⟨res, fs2⟩
      rw [hw] at h
      cases res with
      | ok t =>
        obtain ⟨rest1, cc, crem⟩ := t
        simp only [Prod.mk.injEq, Except.ok.injEq] at h
        obtain ⟨⟨hps, hc, hr⟩, hfs⟩ := h
        subst hc
        subst hr
        exact walkChildren_count_len env base_path filename msg_date msg_from size rest
          count fs rest1 cc crem fs2 hw
      | error e => simp at h
    · split at h
      · -- nested container: recurse, then the siblings
        rcases hw1 : walk_over_parts env base_path filename msg_date msg_from size part
            count fs with ⟨res1, fsa⟩
        rw [hw1] at h
        cases res1 with
        | ok t1 =>
          obtain ⟨pp1, cc1, rem1⟩ := t1
          simp only at h
          rcases hw2 : walkChildren env base_path filename msg_date msg_from size rest
              cc1 fsa with ⟨res2, fsb⟩
          rw [hw2] at h
          cases res2 with
          | ok t2 =>
            obtain ⟨rest1, cc2, rem2⟩ := t2
            simp only [Prod.mk.injEq, Except.ok.injEq] at h
            obtain ⟨⟨hps, hc, hr⟩, hfs⟩ := h
            subst hc
            subst hr
            have e1 := walk_count_len env base_path filename msg_date msg_from size part
              count fs pp1 cc1 rem1 fsa hw1
            have e2 := walkChildren_count_len env base_path filename msg_date msg_from size
              rest cc1 fsa rest1 cc2 rem2 fsb hw2
            simp only [List.length_append]
            omega
          | error e2 => simp at h
        | error e1 => simp at h
      · -- leaf: classify
        rcases hpa : parse_attachment env part with e | t
        · rw [hpa] at h
          simp at h
        · obtain ⟨⟨content_size, attachment_name⟩, printed⟩ := t
          rw [hpa] at h
          cases content_size with
          | some n =>
            cases attachment_name with
            | some name =>
              simp only at h
              split at h
              · -- removal branch
                rcases hst : store_attachment env part name filename base_path msg_date
                    msg_from fs with ⟨resS, fsa⟩
                rw [hst] at h
                cases resS with
                | ok sfn =>
                  simp only at h
                  rcases hw2 : walkChildren env base_path filename msg_date msg_from size
                      rest (count + 1) fsa with ⟨res2, fsb⟩
                  rw [hw2] at h
                  cases res2 with
                  | ok t2 =>
                    obtain ⟨rest1, cc2, rem2⟩ := t2
                    simp only [Prod.mk.injEq, Except.ok.injEq] at h
                    obtain ⟨⟨hps, hc, hr⟩, hfs⟩ := h
                    subst hc
                    subst hr
                    have e2 := walkChildren_count_len env base_path filename msg_date
                      msg_from size rest (count + 1) fsa rest1 cc2 rem2 fsb hw2
                    simp only [List.length_cons]
                    omega
                  | error e2 => simp at h
                | error eS => simp at h
              · -- at or below the threshold: kept
                rcases hw : walkChildren env base_path filename msg_date msg_from size rest
                    count fs with ⟨res, fs2⟩
                rw [hw] at h
                cases res with
                | ok t2 =>
                  obtain ⟨rest1, cc, crem⟩ := t2
                  simp only [Prod.mk.injEq, Except.ok.injEq] at h
                  obtain ⟨⟨hps, hc, hr⟩, hfs⟩ := h
                  subst hc
                  subst hr
                  exact walkChildren_count_len env base_path filename msg_date msg_from size
                    rest count fs rest1 cc crem fs2 hw
                | error e2 => simp at h
            | none =>
              simp only at h
              rcases hw : walkChildren env base_path filename msg_date msg_from size rest
                  count fs with ⟨res, fs2⟩
              rw [hw] at h
              cases res with
              | ok t2 =>
                obtain ⟨rest1, cc, crem⟩ := t2
                simp only [Prod.mk.injEq, Except.ok.injEq] at h
                obtain ⟨⟨hps, hc, hr⟩, hfs⟩ := h
                subst hc
                subst hr
                exact walkChildren_count_len env base_path filename msg_date msg_from size
                  rest count fs rest1 cc crem fs2 hw
              | error e2 => simp at h
          | none =>
            simp only at h
            rcases hw : walkChildren env base_path filename msg_date msg_from size rest
                count fs with ⟨res, fs2⟩
            rw [hw] at h
            cases res with
            | ok t2 =>
              obtain ⟨rest1, cc, crem⟩ := t2
              simp only [Prod.mk.injEq, Except.ok.injEq] at h
              obtain ⟨⟨hps, hc, hr⟩, hfs⟩ := h
              subst hc
              subst hr
              exact walkChildren_count_len env base_path filename msg_date msg_from size
                rest count fs rest1 cc crem fs2 hw
            | error e2 => simp at h
termination_by structural ps
end

/-- C10: the walker's accumulator is monotone.  Whenever the walk of a
node (container or leaf) returns normally, the returned count equals the
incoming count plus the number of removal notices, hence it never
decreases, and it equals the incoming count exactly when no attachment in
the subtree was extracted. -/
theorem c10_count_monotone (env : Externals) (base_path filename : String)
    (msg_date msg_from : Option String) (size : Nat) (p : Part)
    (count : Nat) (fs : FS) (p1 : Part) (c1 : Nat) (rem : List String) (fs1 : FS)
    (h : walk_over_parts env base_path filename msg_date msg_from size p count fs =
      (.ok (p1, c1, rem), fs1)) :
    c1 = count + rem.length ∧ count ≤ c1 ∧ (c1 = count ↔ rem = []) := by
  have e := walk_count_len env base_path filename msg_date msg_from size p
    count fs p1 c1 rem fs1 h
  refine ⟨e, by omega, ?_, ?_⟩
  · intro hc
    rw [hc] at e
    have : rem.length = 0 := by omega
    exact List.length_eq_zero.mp this
  · intro hr
    rw [hr] at e
    simpa using e

/-- Witness for C10 at a concrete removal run: one attachment extracted,
the count rises from zero to one, matching the one-element removal log. -/
theorem c10_count_monotone_witness :
    walk_over_parts sampleEnv "base" "work.mbox" (some "Fri, 02 Jun 2023 08:15:00 +0000")
      (some "bob@mail.org x") 10 sampleMixed 0 emptyFS =
      (.ok (Part.mk "multipart/mixed" none none [] []
              (.parts (.cons (get_replace_text "report.pdf"
                "20230602T0815 from-bob@mail.org report.pdf" 16 sampleEnv.today) .nil)),
            1, [removalMsg "report.pdf" 16]),
       ⟨["base/work attachments"],
        [("base/work attachments/20230602T0815 from-bob@mail.org report.pdf",
          [37, 80, 68, 70])]⟩) ∧
    (1 = 0 + [removalMsg "report.pdf" 16].length ∧ 0 ≤ 1 ∧
     (1 = 0 ↔ [removalMsg "report.pdf" 16] = ([] : List String))) :=
  ⟨rfl,
   c10_count_monotone sampleEnv "base" "work.mbox" (some "Fri, 02 Jun 2023 08:15:00 +0000")
     (some "bob@mail.org x") 10 sampleMixed 0 emptyFS
     (Part.mk "multipart/mixed" none none [] []
        (.parts (.cons (get_replace_text "report.pdf"
          "20230602T0815 from-bob@mail.org report.pdf" 16 sampleEnv.today) .nil)))
     1 [removalMsg "report.pdf" 16]
     ⟨["base/work attachments"],
      [("base/work attachments/20230602T0815 from-bob@mail.org report.pdf",
        [37, 80, 68, 70])]⟩
     rfl⟩

/-! ## Path and filesystem lemmas used by the collision claim -/

theorem strData_append (a b : String) : (a ++ b).data = a.data ++ b.data :=
  rfl

theorem strNe_of_data_length_ne (a b : String)
    (h : a.data.length ≠ b.data.length) : a ≠ b := by
  intro he
  exact h (by rw [he])

/-- Prefixing the md5 hexdigest and a blank always changes the name. -/
theorem prefix_blank_ne (m s : String) : m ++ " " ++ s ≠ s := by
  apply strNe_of_data_length_ne
  simp [strData_append]
  omega

theorem pathJoin_ne_base (a b : String) : pathJoin a b ≠ a := by
  apply strNe_of_data_length_ne
  simp [pathJoin, strData_append]

theorem pathJoin_right_inj (a b c : String) (h : b ≠ c) :
    pathJoin a b ≠ pathJoin a c := by
  intro he
  apply h
  have hd := congrArg String.data he
  simp only [pathJoin, strData_append, List.append_assoc] at hd
  have := List.append_cancel_left hd
  cases b with
  | mk lb =>
    cases c with
    | mk lc =>
      simp only [String.data] at this
      have h2 := List.append_cancel_left this
      rw [h2]

theorem filesHasKey_update_self (l : List (String × List Nat)) (p : String)
    (c : List Nat) (h : filesHasKey l p = true) :
    filesHasKey (filesUpdate l p c) p = true := by
  induction l with
  | nil => simp [filesHasKey] at h
  | cons kv rest ih =>
    by_cases hk : (kv.1 == p) = true
    · simp [filesUpdate, filesHasKey, hk]
    · simp only [filesHasKey, hk, Bool.false_or] at h
      simp [filesUpdate, filesHasKey, hk, ih h]

theorem filesGet_update_self (l : List (String × List Nat)) (p : String)
    (c : List Nat) (h : filesHasKey l p = true) :
    filesGet (filesUpdate l p c) p = some c := by
  induction l with
  | nil => simp [filesHasKey] at h
  | cons kv rest ih =>
    by_cases hk : (kv.1 == p) = true
    · simp [filesUpdate, filesGet, hk]
    · simp only [filesHasKey, hk, Bool.false_or] at h
      simp [filesUpdate, filesGet, hk, ih h]

theorem filesGet_update_other (l : List (String × List Nat)) (p q : String)
    (c : List Nat) (h : q ≠ p) :
    filesGet (filesUpdate l p c) q = filesGet l q := by
  induction l with
  | nil => simp [filesUpdate]
  | cons kv rest ih =>
    by_cases hk : (kv.1 == p) = true
    · have hkp : kv.1 = p := by simpa using hk
      have hq : (p == q) = false := by
        simp only [beq_eq_false_iff_ne]
        exact fun he => h he.symm
      have hq2 : (kv.1 == q) = false := by rw [hkp]; exact hq
      simp [filesUpdate, filesGet, hk, hq, hq2, ih]
    · simp only [Bool.not_eq_true] at hk
      simp [filesUpdate, filesGet, hk, ih]

/-- After a write, the written path exists. -/
theorem pathExists_writeFile_self (fs : FS) (p : String) (c : List Nat) :
    (fs.writeFile p c).pathExists p = true := by
  unfold FS.writeFile FS.pathExists
  by_cases hk : filesHasKey fs.files p = true
  · simp [hk, filesHasKey_update_self fs.files p c hk]
  · simp only [Bool.not_eq_true] at hk
    simp [hk, filesHasKey]

/-- After a write, reading the written path yields the written content. -/
theorem readFile_writeFile_self (fs : FS) (p : String) (c : List Nat) :
    (fs.writeFile p c).readFile p = some c := by
  unfold FS.writeFile FS.readFile
  by_cases hk : filesHasKey fs.files p = true
  · simp [hk, filesGet_update_self fs.files p c hk]
  · simp only [Bool.not_eq_true] at hk
    simp [hk, filesGet]

/-- A write leaves every other path's content unchanged. -/
theorem readFile_writeFile_other (fs : FS) (p q : String) (c : List Nat)
    (h : q ≠ p) :
    (fs.writeFile p c).readFile q = fs.readFile q := by
  unfold FS.writeFile FS.readFile
  have hq : (p == q) = false := by
    simp only [beq_eq_false_iff_ne]
    exact fun he => h he.symm
  by_cases hk : filesHasKey fs.files p = true
  · simp [hk, filesGet_update_other fs.files p q c h]
  · simp only [Bool.not_eq_true] at hk
    simp [hk, filesGet, hq]

/-- Creating a folder never hides an existing path. -/
theorem pathExists_makeDirs_of (fs : FS) (d q : String)
    (h : fs.pathExists q = true) :
    (fs.makeDirs d).pathExists q = true := by
  unfold FS.pathExists at h
  unfold FS.makeDirs FS.pathExists
  simp only [strListHas]
  rcases (Bool.or_eq_true _ _).mp h with h1 | h2
  · simp [h1]
  · simp [h2]

/-- Creating a distinct folder never creates another path. -/
theorem pathExists_makeDirs_ne (fs : FS) (d q : String) (hne : d ≠ q)
    (h : fs.pathExists q = false) :
    (fs.makeDirs d).pathExists q = false := by
  unfold FS.pathExists at h
  unfold FS.makeDirs FS.pathExists
  simp only [strListHas]
  simp only [Bool.or_eq_false_iff] at h ⊢
  exact ⟨⟨by simp [hne], h.1⟩, h.2⟩

/-- Creating a folder is invisible to file reads. -/
theorem readFile_makeDirs (fs : FS) (d q : String) :
    (fs.makeDirs d).readFile q = fs.readFile q :=
  rfl

theorem filesHasKey_update (l : List (String × List Nat)) (p q : String)
    (c : List Nat) :
    filesHasKey (filesUpdate l p c) q = filesHasKey l q := by
  induction l with
  | nil => simp [filesUpdate]
  | cons kv rest ih =>
    by_cases hk : (kv.1 == p) = true
    · have hkp : kv.1 = p := by simpa using hk
      simp [filesUpdate, filesHasKey, hk, hkp, ih]
    · simp only [Bool.not_eq_true] at hk
      simp [filesUpdate, filesHasKey, hk, ih]

/-- A write never hides an existing path. -/
theorem pathExists_writeFile_of (fs : FS) (p q : String) (c : List Nat)
    (h : fs.pathExists q = true) :
    (fs.writeFile p c).pathExists q = true := by
  unfold FS.pathExists at h
  unfold FS.writeFile FS.pathExists
  by_cases hk : filesHasKey fs.files p = true
  · simp only [hk, if_true]
    simpa [filesHasKey_update] using h
  · simp only [Bool.not_eq_true] at hk
    simp only [hk, Bool.false_eq_true, if_false, filesHasKey]
    rcases (Bool.or_eq_true _ _).mp h with h1 | h2
    · simp [h1]
    · simp [h2]

/-- A fresh folder's own path exists. -/
theorem pathExists_makeDirs_self (fs : FS) (d : String) :
    (fs.makeDirs d).pathExists d = true := by
  unfold FS.makeDirs FS.pathExists
  simp [strListHas]

/-- C5: storing two attachments that synthesize to the identical storage
filename in the same destination folder (which does not yet hold a file of
that name) yields two distinct files: the first under the plain
synthesized name, the second under that name prefixed with the hex md5
digest of its decoded content and a blank, with both contents present on
disk afterwards. -/
theorem c5_collision_md5_prefix (env : Externals) (p1 p2 : Part)
    (name1 name2 filename base_path : String) (msg_date msg_from : Option String)
    (sfn : String) (fs : FS)
    (h1 : get_storage_filename env name1 msg_date msg_from = .ok sfn)
    (h2 : get_storage_filename env name2 msg_date msg_from = .ok sfn)
    (_hdiff : p1.decodedContent ≠ p2.decodedContent)
    (hnex : fs.pathExists
      (pathJoin (pathJoin base_path (storeFolderOf filename)) sfn) = false)
    (hw : ∀ q, env.writeOk q = true) :
    ∃ fs1 fs2,
      store_attachment env p1 name1 filename base_path msg_date msg_from fs =
        (.ok sfn, fs1) ∧
      store_attachment env p2 name2 filename base_path msg_date msg_from fs1 =
        (.ok (env.md5Hex p2.decodedContent ++ " " ++ sfn), fs2) ∧
      env.md5Hex p2.decodedContent ++ " " ++ sfn ≠ sfn ∧
      fs2.readFile (pathJoin (pathJoin base_path (storeFolderOf filename)) sfn) =
        some p1.decodedContent ∧
      fs2.readFile (pathJoin (pathJoin base_path (storeFolderOf filename))
        (env.md5Hex p2.decodedContent ++ " " ++ sfn)) = some p2.decodedContent := by
  have hPne : pathJoin base_path (storeFolderOf filename) ≠
      pathJoin (pathJoin base_path (storeFolderOf filename)) sfn :=
    Ne.symm (pathJoin_ne_base _ sfn)
  have hname_ne : env.md5Hex p2.decodedContent ++ " " ++ sfn ≠ sfn :=
    prefix_blank_ne _ sfn
  have hpath_ne :
      pathJoin (pathJoin base_path (storeFolderOf filename))
        (env.md5Hex p2.decodedContent ++ " " ++ sfn) ≠
      pathJoin (pathJoin base_path (storeFolderOf filename)) sfn :=
    pathJoin_right_inj _ _ _ hname_ne
  have hAex : FS.pathExists
      (if fs.pathExists (pathJoin base_path (storeFolderOf filename)) = true then fs
       else fs.makeDirs (pathJoin base_path (storeFolderOf filename)))
      (pathJoin (pathJoin base_path (storeFolderOf filename)) sfn) = false := by
    by_cases hf : fs.pathExists (pathJoin base_path (storeFolderOf filename)) = true
    · simpa [hf] using hnex
    · simp only [hf, if_false]
      exact pathExists_makeDirs_ne fs _ _ hPne hnex
  have hAfold : FS.pathExists
      (if fs.pathExists (pathJoin base_path (storeFolderOf filename)) = true then fs
       else fs.makeDirs (pathJoin base_path (storeFolderOf filename)))
      (pathJoin base_path (storeFolderOf filename)) = true := by
    by_cases hf : fs.pathExists (pathJoin base_path (storeFolderOf filename)) = true
    · simp [hf]
    · simp [hf, pathExists_makeDirs_self]
  have hs1 : store_attachment env p1 name1 filename base_path msg_date msg_from fs =
      (.ok sfn,
       FS.writeFile
         (if fs.pathExists (pathJoin base_path (storeFolderOf filename)) = true then fs
          else fs.makeDirs (pathJoin base_path (storeFolderOf filename)))
         (pathJoin (pathJoin base_path (storeFolderOf filename)) sfn)
         p1.decodedContent) := by
    unfold store_attachment
    rw [h1]
    simp only [hAex, Bool.false_eq_true, if_false, hw, if_true]
  set fs1 := FS.writeFile
      (if fs.pathExists (pathJoin base_path (storeFolderOf filename)) = true then fs
       else fs.makeDirs (pathJoin base_path (storeFolderOf filename)))
      (pathJoin (pathJoin base_path (storeFolderOf filename)) sfn)
      p1.decodedContent with hfs1
  have hfs1P : fs1.pathExists (pathJoin base_path (storeFolderOf filename)) = true :=
    pathExists_writeFile_of _ _ _ _ hAfold
  have hfs1c : fs1.pathExists
      (pathJoin (pathJoin base_path (storeFolderOf filename)) sfn) = true :=
    pathExists_writeFile_self _ _ _
  have hs2 : store_attachment env p2 name2 filename base_path msg_date msg_from fs1 =
      (.ok (env.md5Hex p2.decodedContent ++ " " ++ sfn),
       fs1.writeFile
         (pathJoin (pathJoin base_path (storeFolderOf filename))
           (env.md5Hex p2.decodedContent ++ " " ++ sfn))
         p2.decodedContent) := by
    unfold store_attachment
    rw [h2]
    simp only [hfs1P, if_true, hfs1c, hw]
  refine ⟨fs1, _, hs1, hs2, hname_ne, ?_, ?_⟩
  · rw [readFile_writeFile_other _ _ _ _ (Ne.symm hpath_ne)]
    exact readFile_writeFile_self _ _ _
  · exact readFile_writeFile_self _ _ _

/-- Witness for C5: two same-named, different-content pdf attachments
stored into an empty filesystem land in two distinct files. -/
theorem c5_collision_md5_prefix_witness :
    ∃ fs1 fs2,
      store_attachment sampleEnv samplePdf "report.pdf" "work.mbox" "base"
        (some "Mon, 01 Jan 2024 10:30:00 -0500")
        (some "\"Jane Doe\" <jane@example.com>") emptyFS =
        (.ok "20240101T1030 from-jane@example.com report.pdf", fs1) ∧
      store_attachment sampleEnv samplePdf2 "report.pdf" "work.mbox" "base"
        (some "Mon, 01 Jan 2024 10:30:00 -0500")
        (some "\"Jane Doe\" <jane@example.com>") fs1 =
        (.ok (sampleEnv.md5Hex samplePdf2.decodedContent ++ " " ++
              "20240101T1030 from-jane@example.com report.pdf"), fs2) ∧
      sampleEnv.md5Hex samplePdf2.decodedContent ++ " " ++
        "20240101T1030 from-jane@example.com report.pdf" ≠
        "20240101T1030 from-jane@example.com report.pdf" ∧
      fs2.readFile (pathJoin (pathJoin "base" (storeFolderOf "work.mbox"))
        "20240101T1030 from-jane@example.com report.pdf") =
        some samplePdf.decodedContent ∧
      fs2.readFile (pathJoin (pathJoin "base" (storeFolderOf "work.mbox"))
        (sampleEnv.md5Hex samplePdf2.decodedContent ++ " " ++
         "20240101T1030 from-jane@example.com report.pdf")) =
        some samplePdf2.decodedContent :=
  c5_collision_md5_prefix sampleEnv samplePdf samplePdf2 "report.pdf" "report.pdf"
    "work.mbox" "base" (some "Mon, 01 Jan 2024 10:30:00 -0500")
    (some "\"Jane Doe\" <jane@example.com>")
    "20240101T1030 from-jane@example.com report.pdf" emptyFS
    rfl rfl (by decide) rfl (fun _ => rfl)

end Emailstripper
